import Mathlib

/-!
# Verification of the Image-Flow filter core

Shallow embedding of the Image-Flow image-processing core
(`src/core`): the `Image` pixel buffer, the concrete filters
(grayscale, invert, brightness, sepia), and the `FilterPipeline`
management operations (remove / move / serialize).  C++ exceptions are
modelled with `Except String`; IEEE-754 binary32/binary64 arithmetic is
modelled exactly over dyadic fixed-point integers by
round-to-nearest-even on the significand (no subnormals or overflow,
which the byte-valued computations of this program never reach).
-/

namespace ImageFlow

/-! ## IEEE-754 arithmetic model

C++ `float`/`double` values are modelled exactly as dyadic fixed-point
integers: the `Int` `m` denotes the real value `m / 2^300`.  Every
float value reachable by this program's byte computations is such a
dyadic (exponents never go below `-277`).  Each arithmetic operation is
computed exactly and then rounded to the nearest value with a
`prec`-bit significand, ties to even — `prec = 24` is `float`,
`prec = 53` is `double`.  Subnormals and overflow are not modelled:
they are unreachable for the `[0,255]` byte inputs and the constant
coefficients used here. -/

/-- Binary logarithm by structural fuel recursion (equals
`⌊log₂ n⌋` for `0 < n < 2^fuel`); the fuel keeps every definition
kernel-computable. -/
def log2Aux : Nat → Nat → Nat
  | 0, _ => 0
  | fuel + 1, n => if 2 ≤ n then log2Aux fuel (n / 2) + 1 else 0

/-- Value of `⌊log₂ n⌋` for the magnitudes used by the rounding model. -/
def log2N (n : Nat) : Nat := log2Aux 2000 n

/-- Round the positive rational `num / den` to the nearest `prec`-bit
significand value, returned scaled by `2^300`. -/
def roundPosQ (prec : Nat) (num den : Int) : Int :=
  let k := (num.toNat * 2 ^ 500) / den.toNat
  if k = 0 then 0
  else
    let e : Int := (log2N k : Int) - 500
    let shift : Int := (prec : Int) - 1 - e
    let N : Int := if 0 ≤ shift then num * ((2 ^ shift.toNat : Nat) : Int) else num
    let D : Int := if 0 ≤ shift then den else den * ((2 ^ (-shift).toNat : Nat) : Int)
    let i := Int.ediv N D
    let r := N - i * D
    let i2 := if 2 * r < D then i
      else if D < 2 * r then i + 1
      else if i % 2 = 0 then i else i + 1
    if shift ≤ 300 then i2 * ((2 ^ (300 - shift).toNat : Nat) : Int) else 0

/-- Round the rational `num / den` (`den > 0`) to the nearest `prec`-bit
float, scaled by `2^300`. -/
def roundQ (prec : Nat) (num den : Int) : Int :=
  if num = 0 then 0
  else if 0 < num then roundPosQ prec num den
  else -(roundPosQ prec (-num) den)

/-- A `uint8_t` channel value converted to float (exact). -/
def ofByte (v : Nat) : Int := (v : Int) * ((2 ^ 300 : Nat) : Int)

/-- A decimal `float` literal `num/den`, e.g. `lit32 299 1000` for
`0.299f`. -/
def lit32 (num den : Int) : Int := roundQ 24 num den

/-- Model of `float` multiplication: exact product (scale `2^600`), one
rounding. -/
def mul32 (a b : Int) : Int := roundQ 24 (a * b) ((2 ^ 600 : Nat) : Int)

/-- Model of `float` addition: exact sum, one rounding. -/
def add32 (a b : Int) : Int := roundQ 24 (a + b) ((2 ^ 300 : Nat) : Int)

/-- A decimal `double` literal `num/den`, e.g. `lit64 393 1000` for
`0.393`. -/
def lit64 (num den : Int) : Int := roundQ 53 num den

/-- Model of `double` multiplication: exact product, one rounding. -/
def mul64 (a b : Int) : Int := roundQ 53 (a * b) ((2 ^ 600 : Nat) : Int)

/-- Model of `double` addition: exact sum, one rounding. -/
def add64 (a b : Int) : Int := roundQ 53 (a + b) ((2 ^ 300 : Nat) : Int)

/-- Model of `static_cast<uint8_t>` / `static_cast<int>` of a nonnegative float
value: truncation toward zero. -/
def truncByte (m : Int) : Nat := (Int.ediv m ((2 ^ 300 : Nat) : Int)).toNat

/-! ## `Image` (src/core/include/Image.hpp, src/core/src/Image.cpp)

`m_pixels` is the flat row-major, channel-interleaved byte vector;
bytes are `Nat`s kept in `[0,255]` by every operation of the core. -/

/-- The `Image` class: dimensions as C++ `int`s plus the flat pixel
vector. -/
structure Image where
  m_width : Int
  m_height : Int
  m_channels : Int
  m_pixels : List Nat
  deriving Repr, DecidableEq

/-- Constructor `Image::Image(int width, int height, int channels)`: throws
`std::invalid_argument` when a dimension is non-positive, otherwise
allocates a zero-initialized vector of `width*height*channels` bytes. -/
def mkImage (width height channels : Int) : Except String Image :=
  if width ≤ 0 ∨ height ≤ 0 ∨ channels ≤ 0 then
    .error "Image dimensions must be positive"
  else
    .ok ⟨width, height, channels, List.replicate (width * height * channels).toNat 0⟩

/-- The flat index `(y * m_width + x) * m_channels + channel` used by
`Image::at`. -/
def Image.flatIdx (img : Image) (x y channel : Int) : Nat :=
  ((y * img.m_width + x) * img.m_channels + channel).toNat

/-- Accessor `Image::at(x, y, channel)` (read): bounds-checked access throwing
`std::out_of_range` outside `[0,dim)` in any coordinate. -/
def Image.at (img : Image) (x y channel : Int) : Except String Nat :=
  if x < 0 ∨ x ≥ img.m_width ∨ y < 0 ∨ y ≥ img.m_height ∨
      channel < 0 ∨ channel ≥ img.m_channels then
    .error "Image::at: index out of range"
  else
    .ok (img.m_pixels.getD (img.flatIdx x y channel) 0)

/-- Accessor `Image::at(x, y, channel)` used as the target of an assignment:
same bounds check, then the store through the returned reference. -/
def Image.setAt (img : Image) (x y channel : Int) (v : Nat) :
    Except String Image :=
  if x < 0 ∨ x ≥ img.m_width ∨ y < 0 ∨ y ≥ img.m_height ∨
      channel < 0 ∨ channel ≥ img.m_channels then
    .error "Image::at: index out of range"
  else
    .ok { img with m_pixels := img.m_pixels.set (img.flatIdx x y channel) v }

/-- A structurally sound image: positive dimensions, a pixel vector of
exactly `width*height*channels` bytes, each in `[0,255]` (the `uint8_t`
range the C++ vector guarantees). -/
def Image.WellFormed (img : Image) : Prop :=
  0 < img.m_width ∧ 0 < img.m_height ∧ 0 < img.m_channels ∧
  img.m_pixels.length = (img.m_width * img.m_height * img.m_channels).toNat ∧
  ∀ v ∈ img.m_pixels, v ≤ 255

/-! ## Concrete filters (src/core/src/filters, src/core/include/filters)

Each `apply(const Image& input, Image& output)` body is rendered as a
function `Image → Except String Image`: the C++ writes into `output`
after reassigning it to a freshly constructed zero image, and any
`std::out_of_range` from `Image::at` propagates.  The OpenMP loops have
no cross-iteration dependence, so the sequential fold is their
semantics. -/

/-- The per-pixel luminance of `GrayscaleFilter::apply`:
`static_cast<uint8_t>(0.299f*r + 0.587f*g + 0.114f*b)` in `float`
arithmetic. -/
def grayPixel (r g b : Nat) : Nat :=
  truncByte (add32 (add32 (mul32 (lit32 299 1000) (ofByte r))
    (mul32 (lit32 587 1000) (ofByte g))) (mul32 (lit32 114 1000) (ofByte b)))

/-- Body of `GrayscaleFilter::apply`: `output = Image(w, h, 1)`, then for every
`(x, y)` read channels 0,1,2 of the input through `at` and store the
luminance byte. -/
def grayscaleApply (input : Image) : Except String Image := do
  let out0 ← mkImage input.m_width input.m_height 1
  (List.range input.m_height.toNat).foldlM (fun acc (y : Nat) =>
    (List.range input.m_width.toNat).foldlM (fun acc (x : Nat) => do
      let r ← input.at (x : Int) (y : Int) 0
      let g ← input.at (x : Int) (y : Int) 1
      let b ← input.at (x : Int) (y : Int) 2
      acc.setAt (x : Int) (y : Int) 0 (grayPixel r g b)) acc) out0

/-- Body of `InvertFilter::apply`: `output = Image(w, h, c)`, then
`output.data()[i] = 255 - input.data()[i]` for every
`i < w*h*c` (raw unchecked vector access). -/
def invertApply (input : Image) : Except String Image := do
  let out ← mkImage input.m_width input.m_height input.m_channels
  .ok { out with
    m_pixels :=
      (List.range (input.m_width * input.m_height * input.m_channels).toNat).map
        (fun i => 255 - input.m_pixels.getD i 0) }

/-- The per-byte rule of `BrightnessFilter::apply`:
`pixel * factor` in `float`, `std::clamp` to `[0, 255]`, truncating
cast to `uint8_t`. -/
def brightnessPixel (factor : Int) (v : Nat) : Nat :=
  truncByte (max 0 (min (mul32 (ofByte v) factor) (ofByte 255)))

/-- Body of `BrightnessFilter::apply` with the stored `brightnessFactor`
(itself a C++ `float`): `output = Image(w, h, c)`, every byte scaled,
clamped, and stored through `at`. -/
def brightnessApply (factor : Int) (input : Image) : Except String Image := do
  let out0 ← mkImage input.m_width input.m_height input.m_channels
  (List.range input.m_height.toNat).foldlM (fun acc (y : Nat) =>
    (List.range input.m_width.toNat).foldlM (fun acc (x : Nat) =>
      (List.range input.m_channels.toNat).foldlM (fun acc (c : Nat) => do
        let v ← input.at (x : Int) (y : Int) (c : Int)
        acc.setAt (x : Int) (y : Int) (c : Int) (brightnessPixel factor v)) acc) acc) out0

/-- One sepia channel: `static_cast<int>(c1*r + c2*g + c3*b)` in
`double` arithmetic, then `std::min(255, ·)`. -/
def sepiaChannel (c1 c2 c3 : Int) (r g b : Nat) : Nat :=
  min 255 (truncByte (add64 (add64 (mul64 (lit64 c1 1000) (ofByte r))
    (mul64 (lit64 c2 1000) (ofByte g))) (mul64 (lit64 c3 1000) (ofByte b))))

/-- The loop body of `SepiaFilter::apply` for one `(x, y)`: with at
least 3 channels, read RGB, write the three transformed channels;
otherwise copy channel 0 unchanged. -/
def sepiaStep (input : Image) (acc : Image) (x y : Nat) :
    Except String Image :=
  if 3 ≤ input.m_channels then do
    let r ← input.at (x : Int) (y : Int) 0
    let g ← input.at (x : Int) (y : Int) 1
    let b ← input.at (x : Int) (y : Int) 2
    let a0 ← acc.setAt (x : Int) (y : Int) 0 (sepiaChannel 393 769 189 r g b)
    let a1 ← a0.setAt (x : Int) (y : Int) 1 (sepiaChannel 349 686 168 r g b)
    a1.setAt (x : Int) (y : Int) 2 (sepiaChannel 272 534 131 r g b)
  else do
    let v ← input.at (x : Int) (y : Int) 0
    acc.setAt (x : Int) (y : Int) 0 v

/-- Body of `SepiaFilter::apply`: `output = Image(w, h, c)` (zero-filled), then
the per-pixel step over the whole raster. -/
def sepiaApply (input : Image) : Except String Image := do
  let out0 ← mkImage input.m_width input.m_height input.m_channels
  (List.range input.m_height.toNat).foldlM (fun acc (y : Nat) =>
    (List.range input.m_width.toNat).foldlM (fun acc (x : Nat) =>
      sepiaStep input acc x y) acc) out0

/-! ## Filter instances (src/core/include/Filter.hpp and subclasses)

One constructor per concrete `Filter` subclass, carrying exactly the
mutable members of that class: the configured parameter, if any, and
the `lastExecutionTime` member (a `double`, inert diagnostic data) for
the classes that declare one.  The brightness factor is a C++ `float`,
held in the fixed-point float encoding. -/

/-- A concrete filter object: its class and its data members. -/
inductive FilterInst where
  | grayscale (lastExecutionTime : ℚ)
  | boxblur (kernelRadius : Int) (lastExecutionTime : ℚ)
  | brightness (brightnessFactor : Int)
  | invert
  | sepia
  | grayscaleGPU (lastExecutionTime : ℚ)
  | boxblurGPU (kernelRadius : Int) (lastExecutionTime : ℚ)
  deriving Repr, DecidableEq

namespace FilterInst

/-- Method `clone()` of each subclass: `std::make_unique<X>(*this)`, the
member-wise copy constructor (every data member is copied). -/
def clone : FilterInst → FilterInst
  | .grayscale t => .grayscale t
  | .boxblur r t => .boxblur r t
  | .brightness f => .brightness f
  | .invert => .invert
  | .sepia => .sepia
  | .grayscaleGPU t => .grayscaleGPU t
  | .boxblurGPU r t => .boxblurGPU r t

/-- Method `supportsGPU()`: the base class returns `false`; `BoxBlurFilter`,
`InvertFilter`, `GrayscaleFilterGPU` and `BoxBlurFilterGPU` override it
to `true`. -/
def supportsGPU : FilterInst → Bool
  | .grayscale _ => false
  | .boxblur _ _ => true
  | .brightness _ => false
  | .invert => true
  | .sepia => false
  | .grayscaleGPU _ => true
  | .boxblurGPU _ _ => true

/-- Method `getLastExecutionTime()`: the base class returns `0.0`; the classes
with a `lastExecutionTime` member return it. -/
def getLastExecutionTime : FilterInst → ℚ
  | .grayscale t => t
  | .boxblur _ t => t
  | .brightness _ => 0
  | .invert => 0
  | .sepia => 0
  | .grayscaleGPU t => t
  | .boxblurGPU _ t => t

/-- Rendering of `std::to_string` on a nonnegative `float` value (promoted to
`double`, printed with 6 decimals, rounding the half case up — no value
used here is a tie). -/
def floatToString (m : Int) : String :=
  let scaled := Int.ediv (2 * m * 1000000 + ((2 ^ 300 : Nat) : Int))
    (2 * ((2 ^ 300 : Nat) : Int))
  toString (Int.ediv scaled 1000000) ++ "." ++
    (toString (1000000 + Int.emod scaled 1000000)).drop 1

/-- Method `getName()` of each subclass. -/
def getName : FilterInst → String
  | .grayscale _ => "Grayscale"
  | .boxblur r _ => "Box Blur (radius=" ++ toString r ++ ")"
  | .brightness f => "Brightness (" ++ floatToString f ++ ")"
  | .invert => "Invert"
  | .sepia => "Sepia Tone"
  | .grayscaleGPU _ => "Grayscale (GPU-SYCL)"
  | .boxblurGPU r _ => "BoxBlur GPU (r=" ++ toString r ++ ")"

/-- String `typeid(filterRef).name()` under the GCC ABI used by the project:
length-prefixed mangled class name. -/
def typeName : FilterInst → String
  | .grayscale _ => "15GrayscaleFilter"
  | .boxblur _ _ => "13BoxBlurFilter"
  | .brightness _ => "16BrightnessFilter"
  | .invert => "12InvertFilter"
  | .sepia => "11SepiaFilter"
  | .grayscaleGPU _ => "18GrayscaleFilterGPU"
  | .boxblurGPU _ _ => "16BoxBlurFilterGPU"

end FilterInst

/-! ## FilterPipeline (src/core/src/FilterPipeline.cpp)

The pipeline state is its ordered `filters` vector.  File I/O is
modelled by passing the file's contents: `none` stands for a path that
cannot be opened, `some s` for a readable file with text `s`. -/

namespace FilterPipeline

/-- Swap two in-range vector slots (`std::swap(filters[i], filters[j])`,
called only with both indices in range). -/
def swapIdx (l : List FilterInst) (i j : Nat) : List FilterInst :=
  match l[i]?, l[j]? with
  | some a, some b => (l.set i b).set j a
  | _, _ => l

/-- Method `FilterPipeline::removeFilter(index)`: throws `std::out_of_range`
for `index >= filters.size()`, otherwise erases the slot. -/
def removeFilter (index : Nat) (filters : List FilterInst) :
    Except String (List FilterInst) :=
  if filters.length ≤ index then
    .error "FilterPipeline::removeFilter: index out of range"
  else
    .ok (filters.eraseIdx index)

/-- Method `FilterPipeline::moveFilterUp(index)`: silent no-op (plain
`return`) when `index == 0 || index >= filters.size()`, else swaps with
the predecessor.  It never throws. -/
def moveFilterUp (index : Nat) (filters : List FilterInst) :
    List FilterInst :=
  if index = 0 ∨ filters.length ≤ index then filters
  else swapIdx filters index (index - 1)

/-- Method `FilterPipeline::moveFilterDown(index)`: guards with
`index >= filters.size() - 1` computed in `size_t`, so the subtraction
wraps modulo `2^64`; when the guard holds the call is a silent no-op
(plain `return`), otherwise it swaps with the successor.  On an empty
pipeline the wrapped guard passes almost every index through to an
out-of-bounds `std::swap` — undefined behavior, modelled as `none`. -/
def moveFilterDown (index : Nat) (filters : List FilterInst) :
    Option (List FilterInst) :=
  if (filters.length + (2 ^ 64 - 1)) % 2 ^ 64 ≤ index then some filters
  else match filters[index]?, filters[index + 1]? with
    | some a, some b => some ((filters.set index b).set (index + 1) a)
    | _, _ => none

/-- Method `FilterPipeline::getDescription()`. -/
def getDescription (filters : List FilterInst) : String :=
  if filters.isEmpty then "Empty pipeline"
  else
    toString filters.length ++ " filter(s): " ++
      String.intercalate " → " (filters.map FilterInst.getName)

/-- The document `FilterPipeline::saveToFile` writes: a JSON-like
listing of each stage's `getName()` and `typeid` name. -/
def saveContent (filters : List FilterInst) : String :=
  "\x7b\n  \"pipeline\": [\n" ++
    String.join ((filters.enum).map (fun p =>
      "    \x7b\n      \"name\": \"" ++ p.2.getName ++ "\",\n      \"type\": \"" ++
        p.2.typeName ++ "\"\n    \x7d" ++
        (if p.1 + 1 < filters.length then "," else "") ++ "\n")) ++
    "  ]\n\x7d\n"

/-- Method `FilterPipeline::loadFromFile`: returns `false` (pipeline left
untouched) when the file cannot be opened; otherwise clears the vector
and pushes a fixed default — `GrayscaleFilter()` and
`BrightnessFilter(1.2f)` — without ever reading the file's contents. -/
def loadFromFile (file : Option String) (filters : List FilterInst) :
    Bool × List FilterInst :=
  match file with
  | none => (false, filters)
  | some _ => (true, [.grayscale 0, .brightness (lit32 6 5)])

end FilterPipeline

/-- Decidable equality of `Except` results, for evaluating the model
on concrete inputs. -/
instance {ε α : Type} [DecidableEq ε] [DecidableEq α] : DecidableEq (Except ε α)
  | .ok a, .ok b =>
    if h : a = b then .isTrue (by rw [h]) else .isFalse (fun hh => h (by cases hh; rfl))
  | .error a, .error b =>
    if h : a = b then .isTrue (by rw [h]) else .isFalse (fun hh => h (by cases hh; rfl))
  | .ok _, .error _ => .isFalse (fun hh => Except.noConfusion hh)
  | .error _, .ok _ => .isFalse (fun hh => Except.noConfusion hh)

set_option maxRecDepth 40000

/-! ## Claims -/

/-- C6: on the 4×4, 3-channel buffer with every byte 100, Grayscale
yields the 4×4, 1-channel buffer with every byte exactly 100, Invert
yields every byte exactly 155, and Brightness with factor 0.5 yields
every byte exactly 50. -/
theorem c6_constant100_scenario :
    grayscaleApply ⟨4, 4, 3, List.replicate 48 100⟩ =
      .ok ⟨4, 4, 1, List.replicate 16 100⟩ ∧
    invertApply ⟨4, 4, 3, List.replicate 48 100⟩ =
      .ok ⟨4, 4, 3, List.replicate 48 155⟩ ∧
    brightnessApply (lit32 1 2) ⟨4, 4, 3, List.replicate 48 100⟩ =
      .ok ⟨4, 4, 3, List.replicate 48 50⟩ :=
  ⟨by decide, by decide, by decide⟩

/-- C3 counterexample: `InvertFilter::supportsGPU()` returns `true`,
although the claim states that Invert returns `false`. -/
theorem c3_invert_supports_gpu :
    FilterInst.supportsGPU .invert = true := rfl

/-- C3 (amended): `supportsGPU()` is `false` for the CPU Grayscale,
Brightness and Sepia filters and `true` for BoxBlur, Invert and the two
GPU variants — Invert reports accelerator support even though it has no
dedicated accelerator implementation (its `applyGPU` is the base-class
CPU fallback). -/
theorem c3_supports_gpu_table :
    (∀ t, FilterInst.supportsGPU (.grayscale t) = false) ∧
    (∀ r t, FilterInst.supportsGPU (.boxblur r t) = true) ∧
    (∀ f, FilterInst.supportsGPU (.brightness f) = false) ∧
    FilterInst.supportsGPU .invert = true ∧
    FilterInst.supportsGPU .sepia = false ∧
    (∀ t, FilterInst.supportsGPU (.grayscaleGPU t) = true) ∧
    (∀ r t, FilterInst.supportsGPU (.boxblurGPU r t) = true) :=
  ⟨fun _ => rfl, fun _ _ => rfl, fun _ => rfl, rfl, rfl, fun _ => rfl, fun _ _ => rfl⟩

/-- C4 counterexample: cloning a `GrayscaleFilter` whose
`lastExecutionTime` is 5 ms yields a filter whose
`getLastExecutionTime()` is 5 ms, not 0 — timing history is copied, not
reset. -/
theorem c4_clone_keeps_timing :
    FilterInst.getLastExecutionTime (FilterInst.clone (.grayscale 5)) = 5 ∧
    (5 : ℚ) ≠ 0 :=
  ⟨rfl, by norm_num⟩

/-- C4 (amended): every filter's `clone()` is a member-wise copy — the
duplicate has identical parameters and the *same* last-measured
execution duration as the original (filters without a timing member
report 0 on both sides). -/
theorem c4_clone_memberwise :
    ∀ f : FilterInst, f.clone = f ∧
      f.clone.getLastExecutionTime = f.getLastExecutionTime :=
  fun f => by cases f <;> exact ⟨rfl, rfl⟩

/-- C5 counterexample: on a one-filter pipeline, `moveFilterUp(5)` and
`moveFilterDown(7)` — invalid indices that are not the documented
boundary cases — are silent no-ops rather than out-of-range errors. -/
theorem c5_move_invalid_noop :
    FilterPipeline.moveFilterUp 5 [.invert] = [.invert] ∧
    FilterPipeline.moveFilterDown 7 [.invert] = some [.invert] :=
  ⟨rfl, rfl⟩

/-- C5 (amended): `removeFilter` fails with out-of-range for every
invalid index; `moveFilterUp` never raises an error — index 0 and every
out-of-range index is a silent no-op; on a *nonempty* pipeline
`moveFilterDown` never raises an error — every index ≥ size−1,
boundary or invalid, is a silent no-op.  On an empty pipeline
`moveFilterDown` is undefined behavior (the `size_t` guard wraps and
the swap reads the vector out of bounds), not a no-op and not an
error. -/
theorem c5_remove_errors_moves_noop :
    (∀ (idx : Nat) (l : List FilterInst), l.length ≤ idx →
      FilterPipeline.removeFilter idx l =
        .error "FilterPipeline::removeFilter: index out of range") ∧
    (∀ (idx : Nat) (l : List FilterInst), idx = 0 ∨ l.length ≤ idx →
      FilterPipeline.moveFilterUp idx l = l) ∧
    (∀ (idx : Nat) (l : List FilterInst), l ≠ [] → l.length < 2 ^ 64 →
      l.length - 1 ≤ idx → FilterPipeline.moveFilterDown idx l = some l) ∧
    (∀ idx : Nat, idx < 2 ^ 64 - 1 →
      FilterPipeline.moveFilterDown idx ([] : List FilterInst) = none) := by
  refine ⟨fun idx l h => ?_, fun idx l h => ?_,
    fun idx l hne hlen h => ?_, fun idx h => ?_⟩
  · simp only [FilterPipeline.removeFilter, if_pos h]
  · simp only [FilterPipeline.moveFilterUp, if_pos h]
  · have hL : 0 < l.length := List.length_pos.mpr hne
    simp only [FilterPipeline.moveFilterDown,
      if_pos (show (l.length + (2 ^ 64 - 1)) % 2 ^ 64 ≤ idx by omega)]
  · simp only [FilterPipeline.moveFilterDown, List.length_nil]
    rw [if_neg (by omega)]
    simp

/-- C5 witness: the amended statement at concrete inputs. -/
theorem c5_remove_errors_moves_noop_witness :
    FilterPipeline.removeFilter 3 [.invert] =
      .error "FilterPipeline::removeFilter: index out of range" ∧
    FilterPipeline.moveFilterUp 0 [.invert, .sepia] = [.invert, .sepia] ∧
    FilterPipeline.moveFilterDown 9 [.invert, .sepia] = some [.invert, .sepia] ∧
    FilterPipeline.moveFilterDown 2 ([] : List FilterInst) = none :=
  ⟨c5_remove_errors_moves_noop.1 3 [.invert] (by decide),
   c5_remove_errors_moves_noop.2.1 0 [.invert, .sepia] (Or.inl rfl),
   c5_remove_errors_moves_noop.2.2.1 9 [.invert, .sepia]
     (List.cons_ne_nil _ _) (by norm_num) (by decide),
   c5_remove_errors_moves_noop.2.2.2 2 (by norm_num)⟩

/-- C2 counterexample: loading a malformed (non-pipeline) file succeeds
(`loadFromFile` reports `true`) and replaces the pipeline, contradicting
the claim that a malformed file makes the load fail and leave the
filter sequence untouched. -/
theorem c2_malformed_file_accepted :
    (FilterPipeline.loadFromFile (some "this is not a pipeline file") [.invert]).1
      = true ∧
    (FilterPipeline.loadFromFile (some "this is not a pipeline file") [.invert]).2
      ≠ [.invert] :=
  ⟨rfl, fun h => absurd (congrArg List.length h) (by decide)⟩

/-- C2 (amended): `loadFromFile` fails exactly when the file cannot be
opened, and then leaves the pipeline's filter sequence exactly as it
was; on any readable file — malformed or not — it succeeds and
atomically replaces the sequence with the fixed default
`[Grayscale, Brightness(1.2f)]`.  It never leaves a half-populated
state. -/
theorem c2_load_failure_leaves_pipeline :
    (∀ pl : List FilterInst,
      FilterPipeline.loadFromFile none pl = (false, pl)) ∧
    (∀ (s : String) (pl : List FilterInst),
      FilterPipeline.loadFromFile (some s) pl =
        (true, [.grayscale 0, .brightness (lit32 6 5)])) :=
  ⟨fun _ => rfl, fun _ _ => rfl⟩

/-- C1: save→load does not round-trip — the loader ignores the saved
document and rebuilds the fixed default pipeline; saving the empty
pipeline and loading the result yields a two-stage pipeline with a
changed `describe()` output. -/
theorem c1_save_load_not_roundtrip :
    FilterPipeline.loadFromFile (some (FilterPipeline.saveContent [])) [] =
      (true, [.grayscale 0, .brightness (lit32 6 5)]) ∧
    ([.grayscale 0, .brightness (lit32 6 5)] : List FilterInst).length ≠
      ([] : List FilterInst).length ∧
    FilterPipeline.getDescription [.grayscale 0, .brightness (lit32 6 5)] ≠
      FilterPipeline.getDescription [] :=
  ⟨rfl, by decide, by decide⟩

/-- C8: constructing with positive dimensions yields exactly
`width*height*channels` zero bytes; any non-positive dimension raises
invalid-argument; `at(x, y, c)` succeeds exactly on in-bounds
triples. -/
theorem c8_pixelbuffer_contract :
    (∀ w h c : Int, 0 < w → 0 < h → 0 < c →
      mkImage w h c = .ok ⟨w, h, c, List.replicate (w * h * c).toNat 0⟩) ∧
    (∀ w h c : Int, w ≤ 0 ∨ h ≤ 0 ∨ c ≤ 0 →
      mkImage w h c = .error "Image dimensions must be positive") ∧
    (∀ (img : Image) (x y ch : Int),
      (img.at x y ch).isOk = true ↔
        (0 ≤ x ∧ x < img.m_width ∧ 0 ≤ y ∧ y < img.m_height ∧
          0 ≤ ch ∧ ch < img.m_channels)) := by
  refine ⟨fun w h c hw hh hc => ?_, fun w h c h0 => ?_, fun img x y ch => ?_⟩
  · simp only [mkImage, if_neg (by omega : ¬(w ≤ 0 ∨ h ≤ 0 ∨ c ≤ 0))]
  · simp only [mkImage, if_pos h0]
  · simp only [Image.at]
    by_cases hcond : x < 0 ∨ x ≥ img.m_width ∨ y < 0 ∨ y ≥ img.m_height ∨
        ch < 0 ∨ ch ≥ img.m_channels
    · rw [if_pos hcond]
      simp only [Except.isOk]
      constructor
      · intro h; exact absurd h (by decide)
      · intro hp; exfalso; omega
    · rw [if_neg hcond]
      simp only [Except.isOk]
      constructor
      · intro _; omega
      · intro _; rfl

/-- C8 witness: the contract at concrete inputs. -/
theorem c8_pixelbuffer_contract_witness :
    mkImage 2 3 4 = .ok ⟨2, 3, 4, List.replicate ((2 * 3 * 4 : Int)).toNat 0⟩ ∧
    mkImage 2 0 3 = .error "Image dimensions must be positive" ∧
    ((⟨1, 1, 1, [7]⟩ : Image).at 0 0 0).isOk = true :=
  ⟨c8_pixelbuffer_contract.1 2 3 4 (by decide) (by decide) (by decide),
   c8_pixelbuffer_contract.2.1 2 0 3 (Or.inr (Or.inl (by decide))),
   (c8_pixelbuffer_contract.2.2 ⟨1, 1, 1, [7]⟩ 0 0 0).mpr
     ⟨by decide, by decide, by decide, by decide, by decide, by decide⟩⟩

/-- Evaluating `invertApply` on an image with positive dimensions. -/
theorem invertApply_pos (w h c : Int) (px : List Nat)
    (hw : 0 < w) (hh : 0 < h) (hc : 0 < c) :
    invertApply ⟨w, h, c, px⟩ =
      .ok ⟨w, h, c,
        (List.range (w * h * c).toNat).map (fun i => 255 - px.getD i 0)⟩ := by
  simp only [invertApply, mkImage,
    if_neg (show ¬(w ≤ 0 ∨ h ≤ 0 ∨ c ≤ 0) by omega)]
  rfl

/-- Reading back an element of a tabulated list. -/
theorem getD_map_range (f : Nat → Nat) {n i : Nat} (h : i < n) :
    ((List.range n).map f).getD i 0 = f i := by
  simp [List.getD_eq_getElem?_getD, List.getElem?_map, List.getElem?_range h]

/-- C7: applying Invert twice restores the original image exactly —
same dimensions, same channel count, same bytes. -/
theorem c7_invert_involution :
    ∀ img : Image, img.WellFormed →
      (invertApply img).bind invertApply = .ok img := by
  rintro ⟨w, h, c, px⟩ ⟨hw, hh, hc, hlen, hbytes⟩
  rw [invertApply_pos w h c px hw hh hc]
  show invertApply _ = _
  rw [invertApply_pos w h c _ hw hh hc]
  refine congrArg Except.ok ?_
  refine congrArg (Image.mk w h c) ?_
  refine List.ext_getElem ?_ ?_
  · simpa using hlen.symm
  · intro i h1 h2
    have hi : i < (w * h * c).toNat := by simpa using h1
    have hilen : i < px.length := by omega
    have hpx : px.getD i 0 = px[i] := by
      simp [List.getD_eq_getElem?_getD, List.getElem?_eq_getElem hilen]
    have hb : px[i] ≤ 255 := hbytes _ (List.getElem_mem hilen)
    simp only [List.getElem_map, List.getElem_range, getD_map_range _ hi, hpx]
    omega

/-- C7 witness: the involution on a concrete 1×1 image. -/
theorem c7_invert_involution_witness :
    (invertApply ⟨1, 1, 1, [7]⟩).bind invertApply = .ok ⟨1, 1, 1, [7]⟩ :=
  c7_invert_involution ⟨1, 1, 1, [7]⟩
    ⟨by decide, by decide, by decide, by decide, by decide⟩

/-- Binding an `Except` success. -/
theorem bind_ok {α β : Type} (a : α) (f : α → Except String β) :
    (Except.ok a >>= f) = f a := rfl

/-- Binding an `Except` failure short-circuits. -/
theorem bind_err {α β : Type} (e : String) (f : α → Except String β) :
    ((Except.error e : Except String α) >>= f) = .error e := rfl

/-- C9: grayscale conversion of any nonempty image with fewer than 3
channels raises the bounds-checked accessor's out-of-range error — the
filter unconditionally reads channels 0, 1, 2 of the first pixel. -/
theorem c9_grayscale_needs_three_channels :
    ∀ img : Image, 0 < img.m_width → 0 < img.m_height → img.m_channels < 3 →
      grayscaleApply img = .error "Image::at: index out of range" := by
  rintro ⟨w, h, c, px⟩ hw hh hc
  simp only at hw hh hc
  obtain ⟨k, hk⟩ : ∃ k, h.toNat = k + 1 := ⟨h.toNat - 1, by omega⟩
  obtain ⟨m, hm⟩ : ∃ m, w.toNat = m + 1 := ⟨w.toNat - 1, by omega⟩
  have hmk : mkImage w h 1 = .ok ⟨w, h, 1, List.replicate (w * h * 1).toNat 0⟩ := by
    simp only [mkImage, if_neg (show ¬(w ≤ 0 ∨ h ≤ 0 ∨ (1 : Int) ≤ 0) by omega)]
  have herr : ∀ ch : Int, c ≤ ch →
      Image.at ⟨w, h, c, px⟩ ((0 : Nat) : Int) ((0 : Nat) : Int) ch =
        .error "Image::at: index out of range" := by
    intro ch hch
    simp only [Image.at]
    split
    · rfl
    · rename_i hcond; exact absurd hch (by omega)
  have hok : ∀ ch : Int, 0 ≤ ch → ch < c →
      Image.at ⟨w, h, c, px⟩ ((0 : Nat) : Int) ((0 : Nat) : Int) ch =
        .ok (px.getD ((Image.mk w h c px).flatIdx ((0 : Nat) : Int) ((0 : Nat) : Int) ch) 0) := by
    intro ch h1 h2
    simp only [Image.at]
    split
    · rename_i hcond; exact absurd hcond (by omega)
    · rfl
  simp only [grayscaleApply, hmk, bind_ok, hk, hm, List.range_succ_eq_map,
    List.foldlM_cons, bind_ok]
  rcases (show c ≤ 0 ∨ c = 1 ∨ c = 2 by omega) with hcc | hcc | hcc
  · rw [herr 0 hcc, bind_err, bind_err, bind_err]
  · rw [hok 0 (by omega) (by omega), bind_ok, herr 1 (by omega), bind_err,
      bind_err, bind_err]
  · rw [hok 0 (by omega) (by omega), bind_ok, hok 1 (by omega) (by omega),
      bind_ok, herr 2 (by omega), bind_err, bind_err, bind_err]

/-- C9 witness: a 2×2 two-channel image makes grayscale fail. -/
theorem c9_grayscale_needs_three_channels_witness :
    grayscaleApply ⟨2, 2, 2, List.replicate 8 9⟩ =
      .error "Image::at: index out of range" :=
  c9_grayscale_needs_three_channels ⟨2, 2, 2, List.replicate 8 9⟩
    (by decide) (by decide) (by decide)

/-- Loop invariant of the sepia pass on a 4-channel image: the output
buffer keeps the constructed dimensions, keeps its allocated length,
and every byte at a flat index congruent to 3 mod 4 (the alpha slots)
is still 0. -/
def AlphaInv (w h : Int) (img : Image) : Prop :=
  img.m_width = w ∧ img.m_height = h ∧ img.m_channels = 4 ∧
  img.m_pixels.length = (w * h * 4).toNat ∧
  ∀ i, i % 4 = 3 → img.m_pixels.getD i 0 = 0

/-- A bounds-respecting store to channel 0, 1 or 2 succeeds and
preserves the alpha invariant. -/
theorem setAt_alpha (w h : Int) (img : Image) (x y ch : Int) (v : Nat)
    (hP : AlphaInv w h img) (hx : 0 ≤ x) (hxw : x < w) (hy : 0 ≤ y) (hyh : y < h)
    (hch : ch = 0 ∨ ch = 1 ∨ ch = 2) :
    ∃ img2, img.setAt x y ch v = .ok img2 ∧ AlphaInv w h img2 := by
  obtain ⟨hww, hhh, hcc, hlen, hinv⟩ := hP
  refine ⟨{ img with m_pixels := img.m_pixels.set (img.flatIdx x y ch) v },
    ?_, ?_, ?_, ?_, ?_, ?_⟩
  · simp only [Image.setAt]
    rw [if_neg (show ¬(x < 0 ∨ x ≥ img.m_width ∨ y < 0 ∨ y ≥ img.m_height ∨
        ch < 0 ∨ ch ≥ img.m_channels) by omega)]
  · simpa using hww
  · simpa using hhh
  · simpa using hcc
  · simpa using hlen
  · intro i hi
    have hk : 0 ≤ y * w + x := by
      have := mul_nonneg hy (le_of_lt (lt_of_le_of_lt hx hxw))
      omega
    simp only [Image.flatIdx, hww, hhh, hcc]
    set k : Int := y * w + x with hkdef
    have hne : ((k * 4 + ch).toNat) ≠ i := by omega
    simp only [List.getD_eq_getElem?_getD, List.getElem?_set_ne hne]
    have := hinv i hi
    rwa [List.getD_eq_getElem?_getD] at this

/-- A read of channels 0–3 of an in-bounds pixel of a 4-channel image
succeeds. -/
theorem sepiaRead (img : Image) (x y ch : Int)
    (hc4 : img.m_channels = 4) (hx : 0 ≤ x) (hxw : x < img.m_width)
    (hy : 0 ≤ y) (hyh : y < img.m_height) (h1 : 0 ≤ ch) (h2 : ch < 4) :
    ∃ v, img.at x y ch = .ok v := by
  simp only [Image.at]
  rw [if_neg (show ¬(x < 0 ∨ x ≥ img.m_width ∨ y < 0 ∨ y ≥ img.m_height ∨
      ch < 0 ∨ ch ≥ img.m_channels) by omega)]
  exact ⟨_, rfl⟩

/-- One sepia pixel step on a 4-channel input succeeds and preserves
the alpha invariant. -/
theorem sepiaStep_alpha (input acc : Image) (x y : Nat)
    (hc4 : input.m_channels = 4) (hxw : (x : Int) < input.m_width)
    (hyh : (y : Int) < input.m_height)
    (hP : AlphaInv input.m_width input.m_height acc) :
    ∃ acc2, sepiaStep input acc x y = .ok acc2 ∧
      AlphaInv input.m_width input.m_height acc2 := by
  obtain ⟨r, hr⟩ := sepiaRead input x y 0 hc4 (by omega) hxw (by omega) hyh (by omega) (by omega)
  obtain ⟨g, hg⟩ := sepiaRead input x y 1 hc4 (by omega) hxw (by omega) hyh (by omega) (by omega)
  obtain ⟨b, hb⟩ := sepiaRead input x y 2 hc4 (by omega) hxw (by omega) hyh (by omega) (by omega)
  obtain ⟨a0, ha0, hP0⟩ := setAt_alpha input.m_width input.m_height acc x y 0
    (sepiaChannel 393 769 189 r g b) hP (by omega) hxw (by omega) hyh (Or.inl rfl)
  obtain ⟨a1, ha1, hP1⟩ := setAt_alpha input.m_width input.m_height a0 x y 1
    (sepiaChannel 349 686 168 r g b) hP0 (by omega) hxw (by omega) hyh (Or.inr (Or.inl rfl))
  obtain ⟨a2, ha2, hP2⟩ := setAt_alpha input.m_width input.m_height a1 x y 2
    (sepiaChannel 272 534 131 r g b) hP1 (by omega) hxw (by omega) hyh (Or.inr (Or.inr rfl))
  refine ⟨a2, ?_, hP2⟩
  simp only [sepiaStep, if_pos (show (3 : Int) ≤ input.m_channels by omega)]
  rw [hr, bind_ok, hg, bind_ok, hb, bind_ok, ha0, bind_ok, ha1, bind_ok, ha2]

/-- A row of sepia steps preserves the alpha invariant. -/
theorem sepiaRow_alpha (input : Image) (y : Nat)
    (hc4 : input.m_channels = 4) (hyh : (y : Int) < input.m_height) :
    ∀ (xs : List Nat) (acc : Image), (∀ x ∈ xs, (x : Int) < input.m_width) →
      AlphaInv input.m_width input.m_height acc →
      ∃ acc2, xs.foldlM (fun acc (x : Nat) => sepiaStep input acc x y) acc = .ok acc2 ∧
        AlphaInv input.m_width input.m_height acc2 := by
  intro xs
  induction xs with
  | nil => exact fun acc _ hP => ⟨acc, rfl, hP⟩
  | cons x xs ih =>
    intro acc hbound hP
    obtain ⟨a1, ha1, hP1⟩ := sepiaStep_alpha input acc x y hc4
      (hbound x (List.mem_cons_self x xs)) hyh hP
    obtain ⟨a2, ha2, hP2⟩ := ih a1 (fun z hz => hbound z (List.mem_cons_of_mem x hz)) hP1
    refine ⟨a2, ?_, hP2⟩
    rw [List.foldlM_cons, ha1, bind_ok, ha2]

/-- The full sepia double loop preserves the alpha invariant. -/
theorem sepiaFold_alpha (input : Image) (hc4 : input.m_channels = 4) :
    ∀ (ys : List Nat) (acc : Image), (∀ y ∈ ys, (y : Int) < input.m_height) →
      AlphaInv input.m_width input.m_height acc →
      ∃ acc2, ys.foldlM (fun acc (y : Nat) =>
          (List.range input.m_width.toNat).foldlM
            (fun acc (x : Nat) => sepiaStep input acc x y) acc) acc = .ok acc2 ∧
        AlphaInv input.m_width input.m_height acc2 := by
  intro ys
  induction ys with
  | nil => exact fun acc _ hP => ⟨acc, rfl, hP⟩
  | cons y ys ih =>
    intro acc hbound hP
    obtain ⟨a1, ha1, hP1⟩ := sepiaRow_alpha input y hc4
      (hbound y (List.mem_cons_self y ys)) (List.range input.m_width.toNat) acc
      (fun x hx => by
        have := List.mem_range.mp hx
        omega) hP
    obtain ⟨a2, ha2, hP2⟩ := ih a1 (fun z hz => hbound z (List.mem_cons_of_mem y hz)) hP1
    refine ⟨a2, ?_, hP2⟩
    rw [List.foldlM_cons, ha1, bind_ok, ha2]

/-- C10: on every 4-channel input, sepia returns an image of the same
dimensions and channel count whose fourth (alpha) channel reads 0 at
every pixel — channels 0–2 are the only ones written and the output is
zero-initialized, so the input's alpha values are discarded. -/
theorem c10_sepia_zeroes_alpha :
    ∀ img : Image, img.m_channels = 4 → 0 < img.m_width → 0 < img.m_height →
      ∃ out, sepiaApply img = .ok out ∧
        out.m_width = img.m_width ∧ out.m_height = img.m_height ∧
        out.m_channels = img.m_channels ∧
        ∀ x y : Int, 0 ≤ x → x < img.m_width → 0 ≤ y → y < img.m_height →
          out.at x y 3 = .ok 0 := by
  intro img hc4 hw hh
  have hmk : mkImage img.m_width img.m_height img.m_channels =
      .ok ⟨img.m_width, img.m_height, img.m_channels,
        List.replicate (img.m_width * img.m_height * img.m_channels).toNat 0⟩ := by
    simp only [mkImage, if_neg (show ¬(img.m_width ≤ 0 ∨ img.m_height ≤ 0 ∨
      img.m_channels ≤ 0) by omega)]
  have hP0 : AlphaInv img.m_width img.m_height
      ⟨img.m_width, img.m_height, img.m_channels,
        List.replicate (img.m_width * img.m_height * img.m_channels).toNat 0⟩ := by
    refine ⟨rfl, rfl, hc4, by simp [hc4], ?_⟩
    intro i _
    simp [List.getD_eq_getElem?_getD, List.getElem?_replicate]
    split <;> rfl
  obtain ⟨out, hout, hPout⟩ := sepiaFold_alpha img hc4
    (List.range img.m_height.toNat) _
    (fun y hy => by
      have := List.mem_range.mp hy
      omega) hP0
  obtain ⟨how, hoh, hoc, holen, hoinv⟩ := hPout
  refine ⟨out, ?_, how, hoh, by omega, ?_⟩
  · simp only [sepiaApply, hmk, bind_ok]
    exact hout
  · intro x y hx hxw hy hyh
    simp only [Image.at]
    rw [if_neg (show ¬(x < 0 ∨ x ≥ out.m_width ∨ y < 0 ∨ y ≥ out.m_height ∨
        (3 : Int) < 0 ∨ (3 : Int) ≥ out.m_channels) by omega)]
    have hk : 0 ≤ y * img.m_width + x := by
      have := mul_nonneg hy (le_of_lt hw)
      omega
    refine congrArg Except.ok ?_
    simp only [Image.flatIdx, how, hoh, hoc]
    set k : Int := y * img.m_width + x with hkdef
    exact hoinv _ (by omega)

/-- C10 witness: a 1×1 RGBA pixel with alpha 40 comes out with
alpha 0. -/
theorem c10_sepia_zeroes_alpha_witness :
    ∃ out, sepiaApply ⟨1, 1, 4, [10, 20, 30, 40]⟩ = .ok out ∧
      out.m_width = (1 : Int) ∧ out.m_height = (1 : Int) ∧
      out.m_channels = (4 : Int) ∧
      ∀ x y : Int, 0 ≤ x → x < (1 : Int) → 0 ≤ y → y < (1 : Int) →
        out.at x y 3 = .ok 0 :=
  c10_sepia_zeroes_alpha ⟨1, 1, 4, [10, 20, 30, 40]⟩ rfl (by decide) (by decide)

end ImageFlow
